import Mathlib

/-!
Verification of the motion-sound detector `src/capture.py`.

Shallow embedding conventions:
* Python floats (`time.time()` values, areas from `cv2.contourArea`,
  frequencies, volumes, durations) are modelled as exact rationals `ℚ`;
  the transcendental sine-wave samples are modelled over `ℝ`.
* Python `int(x)` and NumPy `astype(np.int16)` both truncate toward zero;
  they are modelled by explicit truncation functions (`ratTrunc`,
  `realTrunc`), never by rounding.
* The mutable global `last_sound_time` becomes an explicit `SoundState`
  threaded through `play_sound`; the wall clock is an explicit argument.
* External libraries (camera, OpenCV contour extraction, the audio
  device) are parameters of the model: the camera is a flag plus a list
  of frames, contour extraction is an oracle function, and "playing" a
  buffer is recording the (frequency, volume) tone request.
-/

namespace Capture

/-- `CAMERA_INDEX = 0` from the configuration block. -/
def CAMERA_INDEX : ℕ := 0

/-- `MIN_CONTOUR_AREA = 500` from the configuration block. -/
def MIN_CONTOUR_AREA : ℚ := 500

/-- `SOUND_DURATION = 0.1` from the configuration block. -/
def SOUND_DURATION : ℚ := 1/10

/-- `SAMPLE_RATE = 44100` from the configuration block. -/
def SAMPLE_RATE : ℚ := 44100

/-- `BASE_FREQUENCY = 440` from the configuration block. -/
def BASE_FREQUENCY : ℚ := 440

/-- `FREQUENCY_MULTIPLIER = 0.5` from the configuration block. -/
def FREQUENCY_MULTIPLIER : ℚ := 1/2

/-- `VOLUME_MULTIPLIER = 0.5` from the configuration block. -/
def VOLUME_MULTIPLIER : ℚ := 1/2

/-- `SOUND_DELAY = 0.05` from the configuration block. -/
def SOUND_DELAY : ℚ := 1/20

/-- Truncation toward zero on `ℚ`: the behaviour of Python `int(x)`
on a float `x`. -/
def ratTrunc (x : ℚ) : ℤ := if 0 ≤ x then ⌊x⌋ else ⌈x⌉

/-- Number of samples produced by `generate_sine_wave`:
`int(duration * sample_rate)` in line 33 (truncation toward zero;
`np.linspace` then yields that many points). -/
def numSamples (duration sample_rate : ℚ) : ℕ :=
  (ratTrunc (duration * sample_rate)).toNat

/-- The `k`-th sample time of `np.linspace(0, duration, n, False)`
(endpoint excluded): `k * duration / n`. -/
def tSample (duration sample_rate : ℚ) (k : ℕ) : ℚ :=
  k * duration / numSamples duration sample_rate

/-- Line 142: `modulated_frequency = BASE_FREQUENCY + (largest_area *
FREQUENCY_MULTIPLIER / 100)`. -/
def modulated_frequency (largest_area : ℚ) : ℚ :=
  BASE_FREQUENCY + largest_area * FREQUENCY_MULTIPLIER / 100

/-- Line 148: `modulated_volume = VOLUME_MULTIPLIER +
(min(largest_area, 5000) / 5000.0) * (1.0 - VOLUME_MULTIPLIER)`. -/
def modulated_volume_raw (largest_area : ℚ) : ℚ :=
  VOLUME_MULTIPLIER + (min largest_area 5000) / 5000 * (1 - VOLUME_MULTIPLIER)

/-- Line 149: `modulated_volume = min(1.0, modulated_volume)`. -/
def modulated_volume (largest_area : ℚ) : ℚ :=
  min 1 (modulated_volume_raw largest_area)

/-- Line 56 of `play_sound`: `frequency = max(100, min(2000, frequency))`. -/
def clampFrequency (frequency : ℚ) : ℚ := max 100 (min 2000 frequency)

/-- Line 57 of `play_sound`: `volume = max(0.0, min(1.0, volume))`. -/
def clampVolume (volume : ℚ) : ℚ := max 0 (min 1 volume)

/-- The frequency audible for a given largest motion area: the line-142
formula composed with the clamp inside `play_sound`. -/
def soundFrequency (largest_area : ℚ) : ℚ :=
  clampFrequency (modulated_frequency largest_area)

/-- The volume audible for a given largest motion area: lines 148-149
composed with the clamp inside `play_sound`. -/
def soundVolume (largest_area : ℚ) : ℚ :=
  clampVolume (modulated_volume largest_area)

/-- The process-wide mutable state of the audio sink: the global
`last_sound_time` (line 17, initially `0`). -/
structure SoundState where
  last_sound_time : ℚ
  deriving Repr, DecidableEq

/-- A tone request actually handed to the audio device: the clamped
frequency and volume of the generated buffer. -/
structure Tone where
  frequency : ℚ
  volume : ℚ
  deriving Repr, DecidableEq

/-- `play_sound` (lines 41-63): drops the request when less than
`SOUND_DELAY` has elapsed since `last_sound_time`, otherwise clamps
frequency and volume, plays the buffer, and updates `last_sound_time`
to the current time. Returns the new state and the played tone
(`none` on a drop). -/
def play_sound (s : SoundState) (current_time : ℚ) (frequency volume : ℚ) :
    SoundState × Option Tone :=
  if current_time - s.last_sound_time < SOUND_DELAY then
    (s, none)
  else
    (⟨current_time⟩, some ⟨clampFrequency frequency, clampVolume volume⟩)

/-- Truncation toward zero on `ℝ`: the behaviour of NumPy
`astype(np.int16)` on an in-range float (line 38). -/
noncomputable def realTrunc (x : ℝ) : ℤ := if 0 ≤ x then ⌊x⌋ else ⌈x⌉

/-- `generate_sine_wave` (lines 20-39): `np.linspace(0, duration,
int(duration * sample_rate), False)` gives the sample times, the wave is
`amplitude * 32767 * sin(frequency * t * 2 * pi)`, and `astype(np.int16)`
truncates each value toward zero. -/
noncomputable def generate_sine_wave (frequency duration sample_rate : ℚ)
    (amplitude : ℚ) : List ℤ :=
  let n := numSamples duration sample_rate
  (List.range n).map fun k =>
    realTrunc ((amplitude : ℝ) * 32767 *
      Real.sin ((frequency : ℝ) * (tSample duration sample_rate k : ℝ) *
        2 * Real.pi))

/-- A detected contour, abstracted to the quantities the loop reads from
OpenCV: `cv2.contourArea` and the first-order moments `m00`, `m10`,
`m01` from `cv2.moments`. -/
structure Contour where
  area : ℚ
  m00 : ℚ
  m10 : ℚ
  m01 : ℚ
  deriving Repr, DecidableEq

/-- The per-iteration accumulator of the contour loop (lines 107-111):
`motion_detected`, `largest_area`, `center_x`, `center_y`,
`contour_count`, initialised to `false, 0, 0, 0, 0`. -/
structure MotionState where
  motion_detected : Bool
  largest_area : ℚ
  center_x : ℤ
  center_y : ℤ
  contour_count : ℕ
  deriving Repr, DecidableEq

/-- The initial accumulator of lines 107-111. -/
def initMotionState : MotionState := ⟨false, 0, 0, 0, 0⟩

/-- One pass of the `for contour in contours` body (lines 113-136):
skip when `area < MIN_CONTOUR_AREA`; set `motion_detected`, bump
`contour_count`, raise `largest_area` on a strict increase; when
`m00 ≠ 0`, compute the centroid with Python `int` truncation and store
it when `area == largest_area` (compared after the update). -/
def processContour (s : MotionState) (c : Contour) : MotionState :=
  if c.area < MIN_CONTOUR_AREA then s
  else
    let la := if c.area > s.largest_area then c.area else s.largest_area
    let s1 : MotionState :=
      { s with motion_detected := true, largest_area := la,
               contour_count := s.contour_count + 1 }
    if c.m00 ≠ 0 then
      if c.area = s1.largest_area then
        { s1 with center_x := ratTrunc (c.m10 / c.m00),
                  center_y := ratTrunc (c.m01 / c.m00) }
      else s1
    else s1

/-- The whole contour loop: fold the body over the contour list in the
order `cv2.findContours` yields it. -/
def processContours (contours : List Contour) : MotionState :=
  contours.foldl processContour initMotionState

/-- The camera, as `run_motion_sound_detector` uses it: whether
`cap.isOpened()` holds, and the successive frames `cap.read()` returns
(`ret` is false once the list is exhausted). Frames are opaque. -/
structure Camera (F : Type) where
  opened : Bool
  frames : List F

/-- Observable outcome of a run of `run_motion_sound_detector`: the
status lines printed, the number of loop iterations that processed a
frame, the tones passed to the audio device, and the final audio-sink
state. -/
structure DetectorResult where
  messages : List String
  iterations : ℕ
  plays : List Tone
  finalSound : SoundState

/-- The `while True` loop of lines 87-162, parametrised by the OpenCV
motion pipeline `detect` (blur, absdiff, threshold, dilate,
findContours on the previous and current frame) and the wall clock
`times` giving `time.time()` at each iteration. Each iteration reads a
frame (exiting when `ret` is false), extracts contours, and when motion
is detected calls `play_sound` with the modulated frequency and volume;
the current frame becomes the previous one. -/
def detectorLoop {F : Type} (detect : F → F → List Contour) (times : ℕ → ℚ) :
    F → List F → ℕ → SoundState → List Tone → ℕ × SoundState × List Tone
  | _, [], n, s, acc => (n, s, acc)
  | prev, f2 :: rest, n, s, acc =>
    let st := processContours (detect prev f2)
    if st.motion_detected then
      let out := play_sound s (times n)
        (modulated_frequency st.largest_area) (modulated_volume st.largest_area)
      detectorLoop detect times f2 rest (n + 1) out.1 (acc ++ out.2.toList)
    else
      detectorLoop detect times f2 rest (n + 1) s acc

/-- `run_motion_sound_detector` (lines 66-167): fail fast when the
camera does not open (lines 72-75) or the first frame cannot be read
(lines 81-83), otherwise run the processing loop until the stream
ends. -/
def run_motion_sound_detector {F : Type} (detect : F → F → List Contour)
    (times : ℕ → ℚ) (cam : Camera F) (s0 : SoundState) : DetectorResult :=
  if !cam.opened then
    { messages := ["Error: Could not open video stream from camera index 0.",
                   "Please check if the camera is connected and not in use by another application."],
      iterations := 0, plays := [], finalSound := s0 }
  else
    match cam.frames with
    | [] =>
      { messages := ["Camera opened successfully. Press q to quit.",
                     "Error: Could not read first frame. Exiting."],
        iterations := 0, plays := [], finalSound := s0 }
    | f1 :: rest =>
      let out := detectorLoop detect times f1 rest 0 s0 []
      { messages := ["Camera opened successfully. Press q to quit.",
                     "Reached end of stream or camera disconnected. Exiting.",
                     "Application closed."],
        iterations := out.1, plays := out.2.2, finalSound := out.2.1 }

/-! ### Helper lemmas -/

theorem processContour_skip (s : MotionState) (c : Contour)
    (h : c.area < MIN_CONTOUR_AREA) : processContour s c = s := by
  simp [processContour, h]

theorem processContour_motion (s : MotionState) (c : Contour)
    (h : ¬ c.area < MIN_CONTOUR_AREA) :
    (processContour s c).motion_detected = true := by
  simp only [processContour, if_neg h]
  repeat' split
  all_goals rfl

theorem processContour_largest (s : MotionState) (c : Contour)
    (h : ¬ c.area < MIN_CONTOUR_AREA) :
    (processContour s c).largest_area = max s.largest_area c.area := by
  have hla : (if c.area > s.largest_area then c.area else s.largest_area) =
      max s.largest_area c.area := by
    rcases le_or_lt c.area s.largest_area with h1 | h1
    · simp [not_lt.mpr h1, max_eq_left h1]
    · simp [h1, max_eq_right h1.le]
  simp only [processContour, if_neg h, hla]
  repeat' split
  all_goals rfl

theorem motion_foldl (cs : List Contour) (s : MotionState) :
    ((cs.foldl processContour s).motion_detected = true) ↔
      s.motion_detected = true ∨ ∃ c ∈ cs, MIN_CONTOUR_AREA ≤ c.area := by
  induction cs generalizing s with
  | nil => simp
  | cons c cs ih =>
    by_cases h : c.area < MIN_CONTOUR_AREA
    · rw [List.foldl_cons, processContour_skip s c h, ih]
      have hc : ¬ MIN_CONTOUR_AREA ≤ c.area := not_le.mpr h
      simp [List.mem_cons, hc]
    · rw [List.foldl_cons, ih]
      refine iff_of_true (Or.inl (processContour_motion s c h)) ?_
      exact Or.inr ⟨c, List.mem_cons_self c cs, not_lt.mp h⟩

theorem largest_foldl (cs : List Contour) (s : MotionState) :
    (cs.foldl processContour s).largest_area =
      ((cs.filter fun c => MIN_CONTOUR_AREA ≤ c.area).map Contour.area).foldl
        max s.largest_area := by
  induction cs generalizing s with
  | nil => rfl
  | cons c cs ih =>
    by_cases h : c.area < MIN_CONTOUR_AREA
    · rw [List.foldl_cons, processContour_skip s c h, ih]
      have hc : ¬ MIN_CONTOUR_AREA ≤ c.area := not_le.mpr h
      simp [List.filter_cons, hc]
    · rw [List.foldl_cons, ih]
      have hc : MIN_CONTOUR_AREA ≤ c.area := not_lt.mp h
      simp [List.filter_cons, hc, processContour_largest s c h]

theorem foldl_max_le (l : List ℚ) (B : ℚ) :
    ∀ init : ℚ, init ≤ B → (∀ x ∈ l, x ≤ B) → l.foldl max init ≤ B := by
  induction l with
  | nil => intro init h _; simpa using h
  | cons x l ih =>
    intro init hinit hl
    rw [List.foldl_cons]
    exact ih (max init x)
      (max_le hinit (hl x (List.mem_cons_self x l)))
      fun y hy => hl y (List.mem_cons_of_mem x hy)

theorem le_foldl_max (l : List ℚ) : ∀ init : ℚ, init ≤ l.foldl max init := by
  induction l with
  | nil => intro init; simp
  | cons y l ih =>
    intro init
    rw [List.foldl_cons]
    exact le_trans (le_max_left _ _) (ih _)

theorem mem_le_foldl_max (l : List ℚ) :
    ∀ (init x : ℚ), x ∈ l → x ≤ l.foldl max init := by
  induction l with
  | nil => intro _ x hx; simp at hx
  | cons y l ih =>
    intro init x hx
    rw [List.foldl_cons]
    rcases List.mem_cons.mp hx with rfl | hx
    · exact le_trans (le_max_right _ _) (le_foldl_max l _)
    · exact ih _ x hx

theorem largest_le_of_bound (cs : List Contour) (B : ℚ) (hB : 0 ≤ B)
    (h : ∀ d ∈ cs, MIN_CONTOUR_AREA ≤ d.area → d.area ≤ B) :
    (processContours cs).largest_area ≤ B := by
  rw [processContours, largest_foldl]
  refine foldl_max_le _ B _ hB ?_
  intro x hx
  rcases List.mem_map.mp hx with ⟨d, hd, rfl⟩
  rcases List.mem_filter.mp hd with ⟨hdcs, hdarea⟩
  exact h d hdcs (by simpa using hdarea)

theorem center_append (cs : List Contour) (c : Contour)
    (hc : MIN_CONTOUR_AREA ≤ c.area) (hm : c.m00 ≠ 0)
    (hmax : ∀ d ∈ cs, MIN_CONTOUR_AREA ≤ d.area → d.area ≤ c.area) :
    (processContours (cs ++ [c])).center_x = ratTrunc (c.m10 / c.m00) ∧
    (processContours (cs ++ [c])).center_y = ratTrunc (c.m01 / c.m00) := by
  have hsplit : processContours (cs ++ [c]) =
      processContour (processContours cs) c := by
    rw [processContours, processContours, List.foldl_append, List.foldl_cons,
      List.foldl_nil]
  have hle : (processContours cs).largest_area ≤ c.area :=
    largest_le_of_bound cs c.area
      (le_trans (by norm_num [MIN_CONTOUR_AREA]) hc) hmax
  have hns : ¬ c.area < MIN_CONTOUR_AREA := not_lt.mpr hc
  have hla : (if c.area > (processContours cs).largest_area then c.area
      else (processContours cs).largest_area) = c.area := by
    rcases lt_or_eq_of_le hle with h1 | h1
    · simp [h1]
    · simp [h1]
  rw [hsplit]
  simp only [processContour, if_neg hns, hla, if_pos hm, if_pos rfl]
  exact ⟨rfl, rfl⟩

theorem motion_implies_largest (cs : List Contour)
    (h : (processContours cs).motion_detected = true) :
    MIN_CONTOUR_AREA ≤ (processContours cs).largest_area := by
  rcases (motion_foldl cs initMotionState).mp h with h0 | ⟨c, hc, hca⟩
  · simp [initMotionState] at h0
  · rw [processContours, largest_foldl]
    have hmem : c.area ∈
        ((cs.filter fun d => MIN_CONTOUR_AREA ≤ d.area).map Contour.area) :=
      List.mem_map.mpr ⟨c, List.mem_filter.mpr ⟨hc, by simpa using hca⟩, rfl⟩
    calc MIN_CONTOUR_AREA ≤ c.area := hca
    _ ≤ _ := mem_le_foldl_max _ _ _ hmem

theorem gsw_length (f d sr a : ℚ) :
    (generate_sine_wave f d sr a).length = numSamples d sr := by
  simp [generate_sine_wave]

theorem gsw_get (f d sr a : ℚ) (k : ℕ) (hk : k < numSamples d sr) :
    (generate_sine_wave f d sr a)[k]? =
      some (realTrunc ((a : ℝ) * 32767 *
        Real.sin ((f : ℝ) * ((tSample d sr k : ℚ) : ℝ) * 2 * Real.pi))) := by
  unfold generate_sine_wave
  simp [List.getElem?_map, List.getElem?_range, hk]

theorem realTrunc_nonneg_eq (x : ℝ) (h : 0 ≤ x) : realTrunc x = ⌊x⌋ := by
  simp [realTrunc, h]

theorem realTrunc_abs_le (x : ℝ) (B : ℤ) (h : |x| ≤ (B : ℝ)) :
    -B ≤ realTrunc x ∧ realTrunc x ≤ B := by
  have hB : (0 : ℤ) ≤ B := by
    have : (0 : ℝ) ≤ (B : ℝ) := le_trans (abs_nonneg x) h
    exact_mod_cast this
  unfold realTrunc
  split
  · rename_i h0
    constructor
    · exact le_trans (by omega) (Int.floor_nonneg.mpr h0)
    · have : ⌊x⌋ ≤ ⌊(B : ℝ)⌋ := Int.floor_le_floor (le_trans (le_abs_self x) h)
      simpa using this
  · rename_i h0
    push_neg at h0
    constructor
    · have hx : ((-B : ℤ) : ℝ) ≤ x := by
        push_cast
        linarith [neg_abs_le x]
      have hc : ((-B : ℤ) : ℝ) ≤ (⌈x⌉ : ℝ) := le_trans hx (Int.le_ceil x)
      exact_mod_cast hc
    · have hc : ⌈x⌉ ≤ ⌈(0 : ℝ)⌉ := Int.ceil_le_ceil h0.le
      simp at hc
      omega

theorem sine_value_abs_le (a : ℚ) (h0 : 0 ≤ a) (h1 : a ≤ 1) (θ : ℝ) :
    |(a : ℝ) * 32767 * Real.sin θ| ≤ 32767 := by
  have ha : |(a : ℝ)| ≤ 1 := by
    rw [abs_of_nonneg (by exact_mod_cast h0)]
    exact_mod_cast h1
  have hs : |Real.sin θ| ≤ 1 := Real.abs_sin_le_one θ
  calc |(a : ℝ) * 32767 * Real.sin θ| = |(a : ℝ)| * 32767 * |Real.sin θ| := by
        rw [abs_mul, abs_mul]; norm_num
  _ ≤ 1 * 32767 * 1 := by
        apply mul_le_mul (mul_le_mul ha le_rfl (by norm_num) (by norm_num)) hs
          (abs_nonneg _) (by norm_num)
  _ = 32767 := by norm_num

theorem numSamples_four : numSamples 4 1 = 4 := by
  unfold numSamples ratTrunc
  rw [if_pos (by norm_num)]
  have hf : ⌊(4 * 1 : ℚ)⌋ = 4 := by norm_num
  rw [hf]
  rfl

theorem tSample_demo : tSample 4 1 1 = 1 := by
  unfold tSample
  rw [numSamples_four]
  push_cast
  norm_num

theorem gsw_demo_arg :
    ((1/4 : ℚ) : ℝ) * ((tSample 4 1 1 : ℚ) : ℝ) * 2 * Real.pi = Real.pi / 2 := by
  rw [tSample_demo]
  push_cast
  ring

theorem gsw_demo_eval :
    (generate_sine_wave (1/4) 4 1 (7/10))[1]? = some 22936 := by
  rw [gsw_get (1/4) 4 1 (7/10) 1 (by rw [numSamples_four]; norm_num)]
  congr 1
  rw [gsw_demo_arg, Real.sin_pi_div_two, mul_one,
    realTrunc_nonneg_eq _ (by norm_num)]
  rw [Int.floor_eq_iff]
  constructor <;> norm_num

/-! ### Claim theorems -/

/-- C1: the frequency mapping, viewed as a pure function of the largest
motion area (base frequency 440, multiplier 0.5), returns
`440 + area * 0.5 / 100` clamped to `[100, 2000]` Hz; in particular
area 0 yields 440 Hz, area 5000 yields 465 Hz, and area 50000 yields
690 Hz (within range, unclamped). -/
theorem C1_frequency_mapping :
    (∀ a : ℚ, soundFrequency a = max 100 (min 2000 (440 + a * (1/2) / 100))) ∧
    soundFrequency 0 = 440 ∧ soundFrequency 5000 = 465 ∧
    soundFrequency 50000 = 690 := by
  refine ⟨fun a => rfl, ?_, ?_, ?_⟩ <;>
    norm_num [soundFrequency, clampFrequency, modulated_frequency,
      BASE_FREQUENCY, FREQUENCY_MULTIPLIER]

/-- C2: the volume mapping, viewed as a pure function of the largest
motion area (base volume 0.5), returns
`0.5 + min(area, 5000)/5000 * (1 - 0.5)` clamped to `[0, 1]`, and
saturates at 1.0 for every area of at least 5000. -/
theorem C2_volume_mapping :
    (∀ a : ℚ, soundVolume a =
      max 0 (min 1 (1/2 + min a 5000 / 5000 * (1 - 1/2)))) ∧
    (∀ a : ℚ, 5000 ≤ a → soundVolume a = 1) := by
  constructor
  · intro a
    unfold soundVolume clampVolume modulated_volume modulated_volume_raw
      VOLUME_MULTIPLIER
    rw [← min_assoc, min_self]
  · intro a ha
    unfold soundVolume clampVolume modulated_volume modulated_volume_raw
      VOLUME_MULTIPLIER
    rw [min_eq_right ha]
    norm_num

/-- C2 witness: an area of 6000 saturates the volume at 1. -/
theorem C2_volume_mapping_witness : soundVolume 6000 = 1 :=
  C2_volume_mapping.2 6000 (by norm_num)

/-- C3: a second play request arriving less than `SOUND_DELAY` after a
successful play is silently dropped with the last-played timestamp
unchanged; arriving more than the delay later it plays, and the
timestamp is updated exactly on successful plays. -/
theorem C3_rate_limiter (s0 : SoundState) (t1 t2 f1 v1 f2 v2 : ℚ)
    (h1 : (play_sound s0 t1 f1 v1).2.isSome = true) :
    (play_sound s0 t1 f1 v1).1 = ⟨t1⟩ ∧
    (t2 - t1 < SOUND_DELAY →
      play_sound (play_sound s0 t1 f1 v1).1 t2 f2 v2 =
        ((play_sound s0 t1 f1 v1).1, none)) ∧
    (SOUND_DELAY < t2 - t1 →
      (play_sound (play_sound s0 t1 f1 v1).1 t2 f2 v2).2 =
        some ⟨clampFrequency f2, clampVolume v2⟩ ∧
      (play_sound (play_sound s0 t1 f1 v1).1 t2 f2 v2).1 = ⟨t2⟩) := by
  by_cases hc : t1 - s0.last_sound_time < SOUND_DELAY
  · simp [play_sound, hc] at h1
  · have hfst : (play_sound s0 t1 f1 v1).1 = ⟨t1⟩ := by
      simp [play_sound, hc]
    refine ⟨hfst, ?_, ?_⟩
    · intro hlt
      rw [hfst]
      simp [play_sound, hlt]
    · intro hgt
      rw [hfst]
      constructor <;> simp [play_sound, not_lt.mpr hgt.le]

/-- C3 witness: at times 1 and 1.01 (gap 0.01 < 0.05) the second
request is dropped and the timestamp stays at 1. -/
theorem C3_rate_limiter_witness :
    (play_sound ⟨0⟩ 1 440 (1/2)).1 = ⟨1⟩ ∧
    play_sound (play_sound ⟨0⟩ 1 440 (1/2)).1 (101/100) 880 1 =
      ((play_sound ⟨0⟩ 1 440 (1/2)).1, none) := by
  have h := C3_rate_limiter ⟨0⟩ 1 (101/100) 440 (1/2) 880 1
    (by norm_num [play_sound, SOUND_DELAY])
  exact ⟨h.1, h.2.1 (by norm_num [SOUND_DELAY])⟩

/-- C4 counterexample: the claim says the buffer has
`round(duration * sample_rate)` samples, but at duration 2.7 s and
sample rate 1 Hz the code produces `int(2.7) = 2` samples while
`round(2.7) = 3`. -/
theorem C4_counterexample :
    (generate_sine_wave 440 (27/10) 1 (1/2)).length = 2 ∧
    round ((27/10 : ℚ) * 1) = 3 ∧ (2 : ℕ) ≠ 3 := by
  refine ⟨?_, by norm_num [round_eq], by norm_num⟩
  rw [gsw_length]
  unfold numSamples ratTrunc
  rw [if_pos (by norm_num)]
  have hf : ⌊(27/10 * 1 : ℚ)⌋ = 2 := by norm_num
  rw [hf]
  rfl

/-- C4 (amended): for every duration and sample rate, the PCM buffer
produced by the tone synthesizer has exactly
`int(duration * sample_rate)` samples, the product truncated toward
zero (so the floor of the product whenever it is nonnegative) — not
rounded to the nearest integer. -/
theorem C4_buffer_length (f d sr a : ℚ) :
    (generate_sine_wave f d sr a).length = (ratTrunc (d * sr)).toNat ∧
    (0 ≤ d * sr → ((generate_sine_wave f d sr a).length : ℤ) = ⌊d * sr⌋) := by
  constructor
  · rw [gsw_length]
    rfl
  · intro h
    rw [gsw_length]
    unfold numSamples ratTrunc
    rw [if_pos h, Int.toNat_of_nonneg (Int.floor_nonneg.mpr h)]

/-- C4 witness: at duration 0.1 s and sample rate 44100 Hz the buffer
length is the truncation (= floor) of the product. -/
theorem C4_buffer_length_witness :
    (generate_sine_wave 440 (1/10) 44100 (1/2)).length =
      (ratTrunc ((1/10) * 44100)).toNat ∧
    ((generate_sine_wave 440 (1/10) 44100 (1/2)).length : ℤ) =
      ⌊(1/10 : ℚ) * 44100⌋ :=
  ⟨(C4_buffer_length 440 (1/10) 44100 (1/2)).1,
   (C4_buffer_length 440 (1/10) 44100 (1/2)).2 (by norm_num)⟩

/-- C6: the composed area-to-frequency mapping (formula then clamp) is
monotonically non-decreasing in the area, and saturates at 2000 Hz for
every area of at least 312000 (where the raw formula reaches 2000). -/
theorem C6_frequency_monotone :
    (∀ a1 a2 : ℚ, a1 ≤ a2 → soundFrequency a1 ≤ soundFrequency a2) ∧
    (∀ a : ℚ, 312000 ≤ a → soundFrequency a = 2000) := by
  constructor
  · intro a1 a2 h
    unfold soundFrequency clampFrequency modulated_frequency BASE_FREQUENCY
      FREQUENCY_MULTIPLIER
    have hm : (440 : ℚ) + a1 * (1/2) / 100 ≤ 440 + a2 * (1/2) / 100 := by
      linarith
    exact max_le_max le_rfl (min_le_min le_rfl hm)
  · intro a ha
    unfold soundFrequency clampFrequency modulated_frequency BASE_FREQUENCY
      FREQUENCY_MULTIPLIER
    have h2 : (2000 : ℚ) ≤ 440 + a * (1/2) / 100 := by linarith
    rw [min_eq_left h2, max_eq_right (by norm_num : (100 : ℚ) ≤ 2000)]

/-- C6 witness: areas 100 ≤ 200 give non-decreasing frequencies, and
area 400000 saturates at 2000 Hz. -/
theorem C6_frequency_monotone_witness :
    soundFrequency 100 ≤ soundFrequency 200 ∧
    soundFrequency 400000 = 2000 :=
  ⟨C6_frequency_monotone.1 100 200 (by norm_num),
   C6_frequency_monotone.2 400000 (by norm_num)⟩

/-- C5 counterexample: the claim says each sample is
`round(amplitude * 32767 * sin(2π f t))`, but at frequency 1/4 Hz,
duration 4 s, sample rate 1 Hz and amplitude 0.7 the sample at index 1
(where `sin = 1` and the raw value is 22936.9) is the truncation 22936,
while the claimed rounding gives 22937. -/
theorem C5_counterexample :
    (generate_sine_wave (1/4) 4 1 (7/10))[1]? = some 22936 ∧
    round ((7/10 : ℝ) * 32767 *
      Real.sin (2 * Real.pi * ((1/4 : ℚ) : ℝ) *
        ((tSample 4 1 1 : ℚ) : ℝ))) = 22937 ∧
    (22936 : ℤ) ≠ 22937 := by
  refine ⟨gsw_demo_eval, ?_, by norm_num⟩
  have harg : 2 * Real.pi * ((1/4 : ℚ) : ℝ) * ((tSample 4 1 1 : ℚ) : ℝ) =
      Real.pi / 2 := by
    rw [tSample_demo]
    push_cast
    ring
  rw [harg, Real.sin_pi_div_two, mul_one, round_eq, Int.floor_eq_iff]
  constructor <;> norm_num

/-- C5 (amended): each sample of the synthesizer's output equals the
truncation toward zero (not the rounding) of
`amplitude * 32767 * sin(2π·frequency·t)`, with the sample times
`t_k = k·duration/n` spaced uniformly over `[0, duration)`, the right
endpoint excluded. -/
theorem C5_sample_values (f d sr a : ℚ) (k : ℕ) (hk : k < numSamples d sr) :
    (generate_sine_wave f d sr a)[k]? =
      some (realTrunc ((a : ℝ) * 32767 *
        Real.sin (2 * Real.pi * (f : ℝ) * ((tSample d sr k : ℚ) : ℝ)))) ∧
    tSample d sr k = k * d / numSamples d sr ∧
    (0 < d → 0 ≤ tSample d sr k ∧ tSample d sr k < d) ∧
    (∀ j : ℕ, j + 1 < numSamples d sr →
      tSample d sr (j + 1) - tSample d sr j = d / numSamples d sr) := by
  have hn : 0 < numSamples d sr := lt_of_le_of_lt (Nat.zero_le k) hk
  have hnq : (0 : ℚ) < (numSamples d sr : ℚ) := by exact_mod_cast hn
  refine ⟨?_, rfl, ?_, ?_⟩
  · rw [gsw_get f d sr a k hk]
    have harg : (f : ℝ) * ((tSample d sr k : ℚ) : ℝ) * 2 * Real.pi =
        2 * Real.pi * (f : ℝ) * ((tSample d sr k : ℚ) : ℝ) := by ring
    rw [harg]
  · intro hd
    constructor
    · unfold tSample
      exact div_nonneg (mul_nonneg (Nat.cast_nonneg k) hd.le) hnq.le
    · unfold tSample
      rw [div_lt_iff₀ hnq]
      have hkq : (k : ℚ) < (numSamples d sr : ℚ) := by exact_mod_cast hk
      calc (k : ℚ) * d < (numSamples d sr : ℚ) * d :=
            mul_lt_mul_of_pos_right hkq hd
      _ = d * (numSamples d sr : ℚ) := mul_comm _ _
  · intro j _
    have hne : ((numSamples d sr : ℚ)) ≠ 0 := ne_of_gt hnq
    unfold tSample
    push_cast
    field_simp
    ring

/-- C5 witness: at frequency 1/4 Hz, duration 4 s, sample rate 1 Hz,
amplitude 0.7, the sample at index 1 is the truncated sine value and
its sample time lies in [0, 4). -/
theorem C5_sample_values_witness :
    (generate_sine_wave (1/4) 4 1 (7/10))[1]? =
      some (realTrunc (((7/10 : ℚ) : ℝ) * 32767 *
        Real.sin (2 * Real.pi * ((1/4 : ℚ) : ℝ) *
          ((tSample 4 1 1 : ℚ) : ℝ)))) ∧
    (0 : ℚ) ≤ tSample 4 1 1 ∧ tSample 4 1 1 < 4 := by
  have h := C5_sample_values (1/4) 4 1 (7/10) 1 (by rw [numSamples_four]; norm_num)
  exact ⟨h.1, h.2.2.1 (by norm_num)⟩

/-- C7 counterexample: the claim says the first of several regions
sharing the maximal area wins the centroid, but with two surviving
contours of equal area 600, centroids (1,1) and (2,2), the loop
reports (2,2) — the last one — not the first one's (1,1). -/
theorem C7_counterexample :
    processContours [⟨600, 600, 600, 600⟩, ⟨600, 600, 1200, 1200⟩] =
      { motion_detected := true, largest_area := 600, center_x := 2,
        center_y := 2, contour_count := 2 } ∧
    ratTrunc ((600 : ℚ) / 600) = 1 ∧ (2 : ℤ) ≠ 1 := by
  refine ⟨?_, ?_, by norm_num⟩
  · norm_num [processContours, processContour, initMotionState,
      MIN_CONTOUR_AREA, ratTrunc]
  · norm_num [ratTrunc]

/-- C7 (amended): the contour filter discards each region with area
below 500 and outputs the maximal surviving area, with a flag true
exactly when some region survives; when several regions share the
maximal area, the LAST region encountered among them (with nonzero
area moment) wins — its centroid is the one reported. -/
theorem C7_contour_filter :
    (∀ cs : List Contour,
      ((processContours cs).motion_detected = true ↔
        ∃ c ∈ cs, MIN_CONTOUR_AREA ≤ c.area)) ∧
    (∀ cs : List Contour,
      (processContours cs).largest_area =
        ((cs.filter fun c => MIN_CONTOUR_AREA ≤ c.area).map
          Contour.area).foldl max 0) ∧
    (∀ (cs : List Contour) (c : Contour), MIN_CONTOUR_AREA ≤ c.area →
      c.m00 ≠ 0 → (∀ d ∈ cs, MIN_CONTOUR_AREA ≤ d.area → d.area ≤ c.area) →
      (processContours (cs ++ [c])).center_x = ratTrunc (c.m10 / c.m00) ∧
      (processContours (cs ++ [c])).center_y = ratTrunc (c.m01 / c.m00)) := by
  refine ⟨?_, ?_, center_append⟩
  · intro cs
    rw [processContours, motion_foldl]
    simp [initMotionState]
  · intro cs
    rw [processContours, largest_foldl]
    rfl

/-- C7 witness: a single surviving contour of area 600, moments
(600, 1200, 600), sets the flag and reports its truncated centroid. -/
theorem C7_contour_filter_witness :
    (processContours [⟨600, 600, 1200, 600⟩]).motion_detected = true ∧
    (processContours ([] ++ [⟨600, 600, 1200, 600⟩])).center_x =
      ratTrunc ((1200 : ℚ) / 600) := by
  constructor
  · exact (C7_contour_filter.1 _).mpr
      ⟨⟨600, 600, 1200, 600⟩, by simp, by norm_num [MIN_CONTOUR_AREA]⟩
  · exact (C7_contour_filter.2.2 [] ⟨600, 600, 1200, 600⟩
      (by norm_num [MIN_CONTOUR_AREA]) (by norm_num) (by simp)).1

/-- C8: if the camera cannot be opened, or the first frame cannot be
read, the pipeline prints a diagnostic and returns before entering its
processing loop: zero iterations, hence no frame differencing, contour
filtering, or sound playback, and the audio state is untouched. -/
theorem C8_early_exit {F : Type} (detect : F → F → List Contour)
    (times : ℕ → ℚ) (cam : Camera F) (s0 : SoundState) :
    (cam.opened = false →
      run_motion_sound_detector detect times cam s0 =
        { messages := ["Error: Could not open video stream from camera index 0.",
            "Please check if the camera is connected and not in use by another application."],
          iterations := 0, plays := [], finalSound := s0 }) ∧
    (cam.opened = true → cam.frames = [] →
      run_motion_sound_detector detect times cam s0 =
        { messages := ["Camera opened successfully. Press q to quit.",
            "Error: Could not read first frame. Exiting."],
          iterations := 0, plays := [], finalSound := s0 }) := by
  constructor
  · intro h
    simp [run_motion_sound_detector, h]
  · intro ho hf
    simp [run_motion_sound_detector, ho, hf]

/-- C8 witness: a camera that fails to open makes the pipeline return
the diagnostic result with zero iterations and no plays. -/
theorem C8_early_exit_witness :
    run_motion_sound_detector (fun (_ _ : Unit) => ([] : List Contour))
        (fun _ => (0 : ℚ)) ⟨false, []⟩ ⟨0⟩ =
      { messages := ["Error: Could not open video stream from camera index 0.",
          "Please check if the camera is connected and not in use by another application."],
        iterations := 0, plays := [], finalSound := ⟨0⟩ } :=
  (C8_early_exit (fun (_ _ : Unit) => ([] : List Contour))
    (fun _ => (0 : ℚ)) ⟨false, []⟩ ⟨0⟩).1 rfl

/-- C9: for every frequency, duration, sample rate and amplitude in
[0,1], every value passed to the 16-bit conversion has magnitude at
most 32767, so the conversion never wraps: every emitted PCM sample
lies in [-32767, 32767] and the value -32768 never occurs. -/
theorem C9_no_wrap (f d sr a : ℚ) (h0 : 0 ≤ a) (h1 : a ≤ 1) :
    (∀ k : ℕ, |(a : ℝ) * 32767 *
        Real.sin ((f : ℝ) * ((tSample d sr k : ℚ) : ℝ) * 2 * Real.pi)| ≤
      32767) ∧
    (∀ x ∈ generate_sine_wave f d sr a,
      -32767 ≤ x ∧ x ≤ 32767 ∧ x ≠ -32768) := by
  constructor
  · intro k
    exact sine_value_abs_le a h0 h1 _
  · intro x hx
    have hx2 : x ∈ (List.range (numSamples d sr)).map fun k =>
        realTrunc ((a : ℝ) * 32767 *
          Real.sin ((f : ℝ) * ((tSample d sr k : ℚ) : ℝ) * 2 * Real.pi)) := hx
    obtain ⟨k, _, rfl⟩ := List.mem_map.mp hx2
    have hv := sine_value_abs_le a h0 h1
      ((f : ℝ) * ((tSample d sr k : ℚ) : ℝ) * 2 * Real.pi)
    have hb := realTrunc_abs_le ((a : ℝ) * 32767 *
        Real.sin ((f : ℝ) * ((tSample d sr k : ℚ) : ℝ) * 2 * Real.pi)) 32767
      (by exact_mod_cast hv)
    exact ⟨hb.1, hb.2, by omega⟩

/-- C9 witness: at amplitude 0.7 the pre-conversion value at index 0 is
bounded by 32767 and the concrete sample 22936 is in range. -/
theorem C9_no_wrap_witness :
    |((7/10 : ℚ) : ℝ) * 32767 *
      Real.sin (((1/4 : ℚ) : ℝ) * ((tSample 4 1 0 : ℚ) : ℝ) *
        2 * Real.pi)| ≤ 32767 ∧
    -32767 ≤ (22936 : ℤ) ∧ (22936 : ℤ) ≤ 32767 ∧ (22936 : ℤ) ≠ -32768 := by
  have h := C9_no_wrap (1/4) 4 1 (7/10) (by norm_num) (by norm_num)
  refine ⟨h.1 0, h.2 22936 ?_⟩
  obtain ⟨hl, he⟩ := List.getElem?_eq_some_iff.mp gsw_demo_eval
  have hmem := List.getElem_mem hl
  rw [he] at hmem
  exact hmem

/-- C10: on every iteration of the motion loop the computed
`largest_area` is either 0 or at least 500; whenever motion is
detected the area is at least 500, so `play_sound` receives a raw
frequency of at least 442.5 Hz and a raw volume in [0.5, 1.0], and the
lower clamp bounds (100 Hz and 0.0) inside `play_sound` are never the
active bound. -/
theorem C10_motion_bounds :
    (∀ cs : List Contour, (processContours cs).largest_area = 0 ∨
      MIN_CONTOUR_AREA ≤ (processContours cs).largest_area) ∧
    (∀ cs : List Contour, (processContours cs).motion_detected = true →
      MIN_CONTOUR_AREA ≤ (processContours cs).largest_area) ∧
    (∀ a : ℚ, MIN_CONTOUR_AREA ≤ a →
      885/2 ≤ modulated_frequency a ∧
      1/2 ≤ modulated_volume a ∧ modulated_volume a ≤ 1 ∧
      clampFrequency (modulated_frequency a) =
        min 2000 (modulated_frequency a) ∧
      clampVolume (modulated_volume a) = modulated_volume a) := by
  refine ⟨?_, motion_implies_largest, ?_⟩
  · intro cs
    by_cases h : (processContours cs).motion_detected = true
    · exact Or.inr (motion_implies_largest cs h)
    · left
      have hno : ¬ ∃ c ∈ cs, MIN_CONTOUR_AREA ≤ c.area := by
        intro hex
        exact h (by
          rw [processContours, motion_foldl]
          exact Or.inr hex)
      rw [processContours, largest_foldl]
      have hfilter : cs.filter (fun c => MIN_CONTOUR_AREA ≤ c.area) = [] := by
        rw [List.filter_eq_nil_iff]
        intro c hc
        simp only [decide_eq_true_eq]
        intro hcc
        exact hno ⟨c, hc, hcc⟩
      rw [hfilter]
      rfl
  · intro a ha
    have ha500 : (500 : ℚ) ≤ a := by
      simpa [MIN_CONTOUR_AREA] using ha
    have hmin0 : (0 : ℚ) ≤ min a 5000 :=
      le_min (by linarith) (by norm_num)
    have hraw_ge : (1/2 : ℚ) ≤ modulated_volume_raw a := by
      unfold modulated_volume_raw VOLUME_MULTIPLIER
      have h2 : (0 : ℚ) ≤ min a 5000 / 5000 * (1 - 1/2) :=
        mul_nonneg (div_nonneg hmin0 (by norm_num)) (by norm_num)
      linarith
    have hfreq : (885/2 : ℚ) ≤ modulated_frequency a := by
      unfold modulated_frequency BASE_FREQUENCY FREQUENCY_MULTIPLIER
      linarith
    have hvol_ge : (1/2 : ℚ) ≤ modulated_volume a :=
      le_min (by norm_num) hraw_ge
    have hvol_le : modulated_volume a ≤ 1 := min_le_left _ _
    refine ⟨hfreq, hvol_ge, hvol_le, ?_, ?_⟩
    · unfold clampFrequency
      exact max_eq_right (le_min (by norm_num) (by linarith))
    · unfold clampVolume
      rw [min_eq_right hvol_le]
      exact max_eq_right (by linarith)

/-- C10 witness: a single contour of area 600 detects motion with
largest area at least 500, and area 600 gives raw frequency at least
442.5 Hz. -/
theorem C10_motion_bounds_witness :
    MIN_CONTOUR_AREA ≤ (processContours [⟨600, 600, 600, 600⟩]).largest_area ∧
    885/2 ≤ modulated_frequency 600 := by
  have hm : (processContours [⟨600, 600, 600, 600⟩]).motion_detected = true := by
    rw [processContours, motion_foldl]
    exact Or.inr ⟨⟨600, 600, 600, 600⟩, by simp, by norm_num [MIN_CONTOUR_AREA]⟩
  exact ⟨C10_motion_bounds.2.1 _ hm,
    (C10_motion_bounds.2.2 600 (by norm_num [MIN_CONTOUR_AREA])).1⟩

end Capture
